import Mathlib

/-!
Verification of the core of `location_history_generator.py`: time
reconstruction and activity inference for one GPS track segment.

The geodesic-distance primitive is an external collaborator, so every
definition is parametrised by a function `dist : ℚ × ℚ → ℚ × ℚ → ℚ`
taking `(latitude, longitude)` pairs, mirroring the call
`geodesic((p1.lat, p1.lon), (p2.lat, p2.lon)).meters`.

Python floats are modelled as rationals, Python ints as `ℤ`.  Statements
that can raise (`ZeroDivisionError`, `IndexError`, the bare `Exception`
raised for a negative velocity) are modelled with `Except Err`.
-/

/-- Runtime failures of the pipeline.  `invalidInput` is the bare
`Exception()` raised by `ActivityType.from_mean_velocity` on a negative
velocity, `zeroDivision` is Python's `ZeroDivisionError`, `indexError`
is the `IndexError` raised by `self.points[0]` on an empty list. -/
inductive Err where
  | invalidInput
  | zeroDivision
  | indexError
deriving DecidableEq, Repr

/-- The five labels of the `ActivityType` enum. -/
inductive ActivityType where
  | IN_VEHICLE
  | ON_BICYCLE
  | RUNNING
  | STILL
  | WALKING
deriving DecidableEq, Repr

/-- One activity marker (`Activity.__init__(activity_type, time)`). -/
structure Activity where
  activity_type : ActivityType
  time : ℤ
deriving DecidableEq, Repr

/-- One point of a track.  `TrackPoint.__init__` copies `longitude`,
`latitude`, `elevation` from the parsed GPX point, sets `time` to `0`
and `activities` to `[]`. -/
structure TrackPoint where
  lon : ℚ
  lat : ℚ
  ele : ℚ
  time : ℤ
  activities : List Activity
deriving DecidableEq, Repr

instance : Inhabited TrackPoint := ⟨⟨0, 0, 0, 0, []⟩⟩

/-- A raw GPX waypoint as produced by the parser collaborator. -/
structure GpxPoint where
  longitude : ℚ
  latitude : ℚ
  elevation : ℚ
deriving DecidableEq, Repr

/-- `TrackPoint(point)`: ingest a raw waypoint; timestamp starts at 0. -/
def TrackPoint.init (point : GpxPoint) : TrackPoint :=
  ⟨point.longitude, point.latitude, point.elevation, 0, []⟩

/-- `Pair = namedtuple("Pair", ["start", "end"])`; the field `end` is a
Lean keyword and is rendered `endT`. -/
structure Pair where
  start : ℤ
  endT : ℤ
deriving DecidableEq, Repr

instance : Inhabited Pair := ⟨⟨0, 0⟩⟩

/-- Python's `int()` conversion of a float: truncation toward zero. -/
def pyInt (q : ℚ) : ℤ :=
  if q < 0 then -⌊-q⌋ else ⌊q⌋

/-- `Helpers.distance`: delegate to the geodesy collaborator on the
`(lat, lon)` pairs of the two points. -/
def Helpers.distance (dist : ℚ × ℚ → ℚ × ℚ → ℚ) (point1 point2 : TrackPoint) : ℚ :=
  dist (point1.lat, point1.lon) (point2.lat, point2.lon)

/-- `Helpers.distance_sum`: `d = 0; for i in range(0, len(points) - 2):
d += distance(points[i], points[i+1])`.  The final leg is never added. -/
def Helpers.distance_sum (dist : ℚ × ℚ → ℚ × ℚ → ℚ) (points : List TrackPoint) : ℚ :=
  (List.range (points.length - 2)).foldl
    (fun d i => d + Helpers.distance dist (points.getD i default) (points.getD (i + 1) default)) 0

/-- `Helpers.time_diff`: `int(distance(p1, p2) / mean_velocity)`;
raises `ZeroDivisionError` when `mean_velocity` is zero. -/
def Helpers.time_diff (dist : ℚ × ℚ → ℚ × ℚ → ℚ) (point1 point2 : TrackPoint)
    (mean_velocity : ℚ) : Except Err ℤ :=
  if mean_velocity = 0 then .error .zeroDivision
  else .ok (pyInt (Helpers.distance dist point1 point2 / mean_velocity))

/-- `Helpers.mean_velocity`: `distance_sum(points) / (interval.end -
interval.start)`; raises `ZeroDivisionError` on a zero-length window. -/
def Helpers.mean_velocity (dist : ℚ × ℚ → ℚ × ℚ → ℚ) (points : List TrackPoint)
    (interval : Pair) : Except Err ℚ :=
  if interval.endT - interval.start = 0 then .error .zeroDivision
  else .ok (Helpers.distance_sum dist points / (interval.endT - interval.start))

/-- `Helpers.overlap`: closed-interval overlap test. -/
def Helpers.overlap (interval1 interval2 : Pair) : Bool :=
  interval1.start ≤ interval2.endT && interval2.start ≤ interval1.endT

/-- `Helpers.segment_overlap`: the double loop `for s1 in segments: for
s2 in segments: if s1 != s2 and overlap(...)`.  Python's `!=` compares
object identity here; since every `TrackSegment` in the program's list
is a distinct object, identity is modelled as the position in the list,
and only the segments' intervals matter to the test. -/
def Helpers.segment_overlap (segments : List Pair) : Bool :=
  (List.range segments.length).any fun i =>
    (List.range segments.length).any fun j =>
      i != j && Helpers.overlap (segments.getD i default) (segments.getD j default)

/-- `ActivityType.from_mean_velocity`: the threshold ladder, with the
redundant `0 <=` guards and the two merged `RUNNING` bands kept as in
the source.  Thresholds are `5000/3600`, `15000/3600`, `25000/3600`
metres per second. -/
def ActivityType.from_mean_velocity (mean_velocity : ℚ) : Except Err ActivityType :=
  if mean_velocity < 0 then .error .invalidInput
  else if mean_velocity = 0 then .ok ActivityType.STILL
  else if 0 ≤ mean_velocity ∧ mean_velocity < 5000 / 3600 then .ok ActivityType.WALKING
  else if 5000 / 3600 ≤ mean_velocity ∧ mean_velocity < 15000 / 3600 then .ok ActivityType.RUNNING
  else if 15000 / 3600 ≤ mean_velocity ∧ mean_velocity < 25000 / 3600 then .ok ActivityType.RUNNING
  else .ok ActivityType.IN_VEHICLE

/-- Sequential execution of a Python `for` loop body over a list of
indices; the body may raise. -/
def runLoop {β : Type} (f : β → ℕ → Except Err β) : β → List ℕ → Except Err β
  | b, [] => .ok b
  | b, i :: rest =>
    match f b i with
    | .error err => .error err
    | .ok b' => runLoop f b' rest

/-- Body of the loop in `generate_point_times`:
`points[i+1].time = points[i].time + time_diff(points[i], points[i+1], mv)`. -/
def timeStep (dist : ℚ × ℚ → ℚ × ℚ → ℚ) (mean_velocity : ℚ)
    (pts : List TrackPoint) (i : ℕ) : Except Err (List TrackPoint) :=
  match Helpers.time_diff dist (pts.getD i default) (pts.getD (i + 1) default) mean_velocity with
  | .error err => .error err
  | .ok td =>
    .ok (pts.set (i + 1) { pts.getD (i + 1) default with time := (pts.getD i default).time + td })

/-- The two boundary statements of `generate_point_times`:
`self.points[0].time = self.interval.start` followed by
`self.points[-1].time = self.interval.end` (on a singleton list the
second overwrites the first). -/
def setBoundaryTimes (interval : Pair) (points : List TrackPoint) : List TrackPoint :=
  let pts1 := points.set 0 { points.getD 0 default with time := interval.start }
  pts1.set (pts1.length - 1) { pts1.getD (pts1.length - 1) default with time := interval.endT }

/-- `TrackSegment.generate_point_times`: set the first point's time to
`interval.start` and the last point's (`points[-1]`) to `interval.end`,
then run the recurrence loop over `range(0, len(points) - 2)`.  An
empty list raises `IndexError` at `points[0]`. -/
def TrackSegment.generate_point_times (dist : ℚ × ℚ → ℚ × ℚ → ℚ) (interval : Pair)
    (mean_velocity : ℚ) (points : List TrackPoint) : Except Err (List TrackPoint) :=
  if points.length = 0 then .error .indexError
  else
    runLoop (timeStep dist mean_velocity) (setBoundaryTimes interval points)
      (List.range (points.length - 2))

/-- One assignment `unique_time_points[point.time] = point` into a
Python dict modelled as an association list: insertion order of keys is
kept, the value of an existing key is overwritten in place. -/
def dictInsert (m : List (ℤ × TrackPoint)) (k : ℤ) (v : TrackPoint) :
    List (ℤ × TrackPoint) :=
  if m.any (fun kv => kv.1 == k) then
    m.map (fun kv => if kv.1 == k then (kv.1, v) else kv)
  else m ++ [(k, v)]

/-- `TrackSegment.remove_duplicate_time_points`: fill a dict keyed by
timestamp and keep `list(dict.values())`. -/
def TrackSegment.remove_duplicate_time_points (points : List TrackPoint) :
    List TrackPoint :=
  (points.foldl (fun m point => dictInsert m point.time point) []).map Prod.snd

/-- Body of the loop in `generate_activities`: on a gap larger than the
sampling rate, append `floor(gap / rate)` markers to `points[i]` (the
inner `for j in range(...)` appends them one at a time; the net effect
is a single list append). -/
def activityStep (activity : ActivityType) (activity_sampling_rate : ℤ)
    (pts : List TrackPoint) (i : ℕ) : Except Err (List TrackPoint) :=
  let time_diff := (pts.getD (i + 1) default).time - (pts.getD i default).time
  if activity_sampling_rate < time_diff then
    if activity_sampling_rate = 0 then .error .zeroDivision
    else
      .ok (pts.set i { pts.getD i default with
        activities := (pts.getD i default).activities ++
          (List.range (Int.toNat ⌊(time_diff : ℚ) / (activity_sampling_rate : ℚ)⌋)).map
            (fun (j : ℕ) => Activity.mk activity
              ((pts.getD i default).time + activity_sampling_rate * (j : ℤ))) })
  else .ok pts

/-- `TrackSegment.generate_activities`: the marker loop runs over
`range(0, len(points) - 2)`, so the final consecutive pair is skipped. -/
def TrackSegment.generate_activities (activity : ActivityType)
    (activity_sampling_rate : ℤ) (points : List TrackPoint) :
    Except Err (List TrackPoint) :=
  runLoop (activityStep activity activity_sampling_rate) points
    (List.range (points.length - 2))

/-- The finished segment: fields of the Python `TrackSegment` object. -/
structure TrackSegment where
  points : List TrackPoint
  interval : Pair
  mean_velocity : ℚ
  activity : ActivityType
  activity_sampling_rate : ℤ
deriving DecidableEq, Repr

/-- `TrackSegment.__init__`: ingest the waypoints, derive the mean
velocity and activity type, then run `generate_point_times`,
`remove_duplicate_time_points` and `generate_activities` in order. -/
def TrackSegment.init (dist : ℚ × ℚ → ℚ × ℚ → ℚ) (seg_points : List GpxPoint)
    (activity_sampling_rate : ℤ) (start_of_tracking end_of_tracking : ℤ) :
    Except Err TrackSegment :=
  let points := seg_points.map TrackPoint.init
  let interval : Pair := ⟨start_of_tracking, end_of_tracking⟩
  match Helpers.mean_velocity dist points interval with
  | .error err => .error err
  | .ok mean_velocity =>
    match ActivityType.from_mean_velocity mean_velocity with
    | .error err => .error err
    | .ok activity =>
      match TrackSegment.generate_point_times dist interval mean_velocity points with
      | .error err => .error err
      | .ok points2 =>
        let points3 := TrackSegment.remove_duplicate_time_points points2
        match TrackSegment.generate_activities activity activity_sampling_rate points3 with
        | .error err => .error err
        | .ok points4 =>
          .ok ⟨points4, interval, mean_velocity, activity, activity_sampling_rate⟩

/-- Key insertion of a Python dict, tracked on keys alone. -/
def pyKeysStep (acc : List ℤ) (k : ℤ) : List ℤ :=
  if k ∈ acc then acc else acc ++ [k]

/-- The key sequence of a Python dict filled from `l` in order:
distinct values of `l` in order of first occurrence. -/
def pyKeys (l : List ℤ) : List ℤ :=
  l.foldl pyKeysStep []

/-- The timestamp sequence produced by the `generate_point_times`
recurrence before the final boundary index: `recTime 0 = start`,
`recTime (i+1) = recTime i + int(distance(points[i], points[i+1]) / mv)`. -/
def recTime (dist : ℚ × ℚ → ℚ × ℚ → ℚ) (mv : ℚ) (pts : List TrackPoint)
    (s : ℤ) : ℕ → ℤ
  | 0 => s
  | i + 1 => recTime dist mv pts s i +
      pyInt (Helpers.distance dist (pts.getD i default) (pts.getD (i + 1) default) / mv)

/-- A concrete distance function: 50 metres between any two distinct
coordinates, 0 between equal ones. -/
def exDist : ℚ × ℚ → ℚ × ℚ → ℚ :=
  fun a b => if a = b then 0 else 50

/-- A concrete waypoint. -/
def exG1 : GpxPoint := ⟨1, 2, 3⟩

/-- A second concrete waypoint, 50 metres from `exG1` under `exDist`. -/
def exG2 : GpxPoint := ⟨4, 5, 6⟩

/-- The segment the pipeline produces from `[exG1, exG2]` on window
`{0, 100}` with sampling rate 5. -/
def exSeg2 : TrackSegment :=
  ⟨[⟨1, 2, 3, 0, []⟩, ⟨4, 5, 6, 100, []⟩], ⟨0, 100⟩, 0, ActivityType.STILL, 5⟩

/-- Three timestamped points (gaps 50 and 50) for the marker examples. -/
def ex4pts : List TrackPoint :=
  [⟨0, 0, 0, 0, []⟩, ⟨0, 0, 0, 50, []⟩, ⟨0, 0, 0, 100, []⟩]

/-! ### List utilities -/

theorem getD_set_self {α : Type} (l : List α) (i : ℕ) (a d : α) (h : i < l.length) :
    (l.set i a).getD i d = a := by
  induction l generalizing i with
  | nil => simp at h
  | cons x t ih =>
    cases i with
    | zero => rfl
    | succ j => simpa using ih j (by simpa using h)

theorem getD_set_ne {α : Type} (l : List α) (i j : ℕ) (a d : α) (h : i ≠ j) :
    (l.set i a).getD j d = l.getD j d := by
  induction l generalizing i j with
  | nil => rfl
  | cons x t ih =>
    cases i with
    | zero =>
      cases j with
      | zero => exact absurd rfl h
      | succ m => rfl
    | succ n =>
      cases j with
      | zero => rfl
      | succ m => simpa using ih n m (by omega)

theorem getD_map_time (l : List TrackPoint) (i : ℕ) (h : i < l.length) :
    (l.map TrackPoint.time).getD i 0 = (l.getD i default).time := by
  induction l generalizing i with
  | nil => simp at h
  | cons x t ih =>
    cases i with
    | zero => rfl
    | succ j => simpa using ih j (by simpa using h)

theorem head?_eq_getD {α : Type} (l : List α) (d : α) (h : l ≠ []) :
    l.head? = some (l.getD 0 d) := by
  cases l with
  | nil => exact absurd rfl h
  | cons x t => rfl

theorem getLast?_eq_getD {α : Type} (l : List α) (d : α) (h : l ≠ []) :
    l.getLast? = some (l.getD (l.length - 1) d) := by
  induction l with
  | nil => exact absurd rfl h
  | cons x t ih =>
    cases t with
    | nil => rfl
    | cons y u =>
      rw [List.getLast?_cons_cons, ih (by simp)]
      rfl

theorem map_time_set_activities (l : List TrackPoint) (i : ℕ) (X : List Activity) :
    ((l.set i { l.getD i default with activities := X }).map TrackPoint.time) =
      l.map TrackPoint.time := by
  induction l generalizing i with
  | nil => rfl
  | cons x t ih =>
    cases i with
    | zero => rfl
    | succ j => simpa using ih j

/-! ### Loop machinery -/

theorem runLoop_append {β : Type} (f : β → ℕ → Except Err β) (l1 l2 : List ℕ) (b : β) :
    runLoop f b (l1 ++ l2) =
      match runLoop f b l1 with
      | .error err => .error err
      | .ok b' => runLoop f b' l2 := by
  induction l1 generalizing b with
  | nil => rfl
  | cons i rest ih =>
    simp only [List.cons_append, runLoop]
    cases f b i with
    | error err => rfl
    | ok b' => exact ih b'

theorem runLoop_range_invariant {β : Type} (f : β → ℕ → Except Err β)
    (Q : ℕ → β → Prop) (K : ℕ)
    (hstep : ∀ k, k < K → ∀ b, Q k b → ∃ b', f b k = .ok b' ∧ Q (k + 1) b') :
    ∀ b0, Q 0 b0 → ∃ b, runLoop f b0 (List.range K) = .ok b ∧ Q K b := by
  induction K with
  | zero => exact fun b0 h0 => ⟨b0, rfl, h0⟩
  | succ K ih =>
    intro b0 h0
    obtain ⟨b, hb, hQ⟩ := ih (fun k hk => hstep k (by omega)) b0 h0
    obtain ⟨b', hb', hQ'⟩ := hstep K (by omega) b hQ
    refine ⟨b', ?_, hQ'⟩
    rw [List.range_succ, runLoop_append, hb]
    simp [runLoop, hb']

theorem runLoop_ok_invariant {β : Type} (P : β → Prop) (f : β → ℕ → Except Err β)
    (hf : ∀ b i b', f b i = .ok b' → P b → P b') :
    ∀ l b r, runLoop f b l = .ok r → P b → P r := by
  intro l
  induction l with
  | nil =>
    intro b r h hP
    cases h
    exact hP
  | cons i rest ih =>
    intro b r h hP
    rw [runLoop] at h
    cases hfb : f b i with
    | error err => rw [hfb] at h; cases h
    | ok b' =>
      rw [hfb] at h
      exact ih b' r h (hf b i b' hfb hP)

theorem foldl_add_range (f : ℕ → ℚ) (c : ℚ) :
    ∀ n, (List.range n).foldl (fun d i => d + f i) c = c + ∑ i in Finset.range n, f i := by
  intro n
  induction n generalizing c with
  | zero => simp
  | succ n ih =>
    rw [List.range_succ, List.foldl_append, ih, Finset.sum_range_succ]
    simp [add_assoc]

/-! ### The dict used by `remove_duplicate_time_points` -/

theorem any_key_eq (m : List (ℤ × TrackPoint)) (k : ℤ) :
    (m.any fun kv => kv.1 == k) = true ↔ k ∈ m.map Prod.fst := by
  simp [List.any_eq_true, List.mem_map]

theorem dictInsert_fst (m : List (ℤ × TrackPoint)) (k : ℤ) (v : TrackPoint) :
    (dictInsert m k v).map Prod.fst = pyKeysStep (m.map Prod.fst) k := by
  unfold dictInsert pyKeysStep
  by_cases h : k ∈ m.map Prod.fst
  · rw [if_pos ((any_key_eq m k).2 h), if_pos h, List.map_map]
    apply List.map_congr_left
    intro kv _
    dsimp only [Function.comp]
    split <;> rfl
  · rw [if_neg (fun hc => h ((any_key_eq m k).1 hc)), if_neg h]
    simp

theorem dedup_fold_keys (pts : List TrackPoint) :
    ∀ m0 : List (ℤ × TrackPoint),
      ((pts.foldl (fun m p => dictInsert m p.time p) m0).map Prod.fst) =
        (pts.map TrackPoint.time).foldl pyKeysStep (m0.map Prod.fst) := by
  induction pts with
  | nil => intro m0; rfl
  | cons p t ih =>
    intro m0
    simp only [List.foldl_cons, List.map_cons]
    rw [ih, dictInsert_fst]

theorem dedup_fold_inv (pts : List TrackPoint) :
    ∀ m0, (∀ kv ∈ m0, kv.2.time = kv.1) →
      ∀ kv ∈ pts.foldl (fun m p => dictInsert m p.time p) m0, kv.2.time = kv.1 := by
  induction pts with
  | nil => intro m0 h; exact h
  | cons p t ih =>
    intro m0 h
    simp only [List.foldl_cons]
    refine ih _ ?_
    intro kv hkv
    unfold dictInsert at hkv
    by_cases hc : (m0.any fun kv => kv.1 == p.time) = true
    · rw [if_pos hc] at hkv
      obtain ⟨kv0, hkv0, hmap⟩ := List.mem_map.1 hkv
      by_cases hk : (kv0.1 == p.time) = true
      · rw [if_pos hk] at hmap
        rw [← hmap]
        exact (beq_iff_eq.1 hk).symm
      · rw [if_neg hk] at hmap
        rw [← hmap]
        exact h kv0 hkv0
    · rw [if_neg hc] at hkv
      rcases List.mem_append.1 hkv with hm | hm
      · exact h kv hm
      · rw [List.mem_singleton] at hm
        subst hm
        rfl

theorem remove_dup_map_time (pts : List TrackPoint) :
    (TrackSegment.remove_duplicate_time_points pts).map TrackPoint.time =
      pyKeys (pts.map TrackPoint.time) := by
  unfold TrackSegment.remove_duplicate_time_points pyKeys
  rw [List.map_map]
  have hinv := dedup_fold_inv pts [] (by simp)
  have hcg : List.map (TrackPoint.time ∘ Prod.snd)
      (pts.foldl (fun m point => dictInsert m point.time point) []) =
      List.map Prod.fst (pts.foldl (fun m point => dictInsert m point.time point) []) :=
    List.map_congr_left (fun kv hkv => hinv kv hkv)
  rw [hcg, dedup_fold_keys pts []]
  rfl

/-! ### Order facts about the key sequence of the dict -/

theorem pyKeysStep_mem (acc : List ℤ) (k : ℤ) (h : k ∈ acc) :
    pyKeysStep acc k = acc := by
  unfold pyKeysStep
  exact if_pos h

theorem pyKeysStep_not_mem (acc : List ℤ) (k : ℤ) (h : k ∉ acc) :
    pyKeysStep acc k = acc ++ [k] := by
  unfold pyKeysStep
  exact if_neg h

theorem sorted_append_singleton (acc : List ℤ) (k : ℤ) (hs : acc.Sorted (· < ·))
    (hlt : ∀ a ∈ acc, a < k) : (acc ++ [k]).Sorted (· < ·) := by
  induction acc with
  | nil => exact List.sorted_singleton k
  | cons a t ih =>
    rw [List.sorted_cons] at hs
    rw [List.cons_append, List.sorted_cons]
    constructor
    · intro b hb
      rcases List.mem_append.1 hb with hm | hm
      · exact hs.1 b hm
      · rw [List.mem_singleton] at hm
        subst hm
        exact hlt a (List.mem_cons_self _ _)
    · exact ih hs.2 (fun b hb => hlt b (List.mem_cons_of_mem _ hb))

theorem pyKeysStep_sorted (acc : List ℤ) (k : ℤ) (hs : acc.Sorted (· < ·))
    (hle : ∀ a ∈ acc, a ≤ k) : (pyKeysStep acc k).Sorted (· < ·) := by
  by_cases hk : k ∈ acc
  · rw [pyKeysStep_mem acc k hk]; exact hs
  · rw [pyKeysStep_not_mem acc k hk]
    exact sorted_append_singleton acc k hs
      (fun a ha => lt_of_le_of_ne (hle a ha) (fun h => hk (h ▸ ha)))

theorem pyKeysStep_le (acc : List ℤ) (k x : ℤ) (hkx : k ≤ x)
    (hax : ∀ a ∈ acc, a ≤ x) : ∀ a ∈ pyKeysStep acc k, a ≤ x := by
  intro a ha
  by_cases hk : k ∈ acc
  · rw [pyKeysStep_mem acc k hk] at ha; exact hax a ha
  · rw [pyKeysStep_not_mem acc k hk] at ha
    rcases List.mem_append.1 ha with hm | hm
    · exact hax a hm
    · rw [List.mem_singleton] at hm; subst hm; exact hkx

theorem foldl_pyKeysStep_sorted :
    ∀ (l acc : List ℤ), acc.Sorted (· < ·) → (∀ a ∈ acc, ∀ x ∈ l, a ≤ x) →
      l.Sorted (· ≤ ·) → (l.foldl pyKeysStep acc).Sorted (· < ·) := by
  intro l
  induction l with
  | nil => intro acc hs _ _; exact hs
  | cons k t ih =>
    intro acc hs hle hsl
    rw [List.foldl_cons]
    rw [List.sorted_cons] at hsl
    refine ih _ (pyKeysStep_sorted acc k hs (fun a ha => hle a ha k (List.mem_cons_self _ _)))
      ?_ hsl.2
    intro a ha x hx
    exact pyKeysStep_le acc k x (hsl.1 x hx)
      (fun b hb => hle b hb x (List.mem_cons_of_mem _ hx)) a ha

theorem foldl_pyKeysStep_head? :
    ∀ (l acc : List ℤ), acc ≠ [] → (l.foldl pyKeysStep acc).head? = acc.head? := by
  intro l
  induction l with
  | nil => intro acc _; rfl
  | cons k t ih =>
    intro acc h
    rw [List.foldl_cons]
    by_cases hk : k ∈ acc
    · rw [pyKeysStep_mem acc k hk]; exact ih acc h
    · rw [pyKeysStep_not_mem acc k hk, ih (acc ++ [k]) (by simp)]
      cases acc with
      | nil => exact absurd rfl h
      | cons a t2 => rfl

theorem sorted_getLast?_max :
    ∀ (acc : List ℤ) (k : ℤ), acc.Sorted (· < ·) → k ∈ acc → (∀ a ∈ acc, a ≤ k) →
      acc.getLast? = some k := by
  intro acc
  induction acc with
  | nil => intro k _ hk _; simp at hk
  | cons a t ih =>
    intro k hs hk hle
    rw [List.sorted_cons] at hs
    cases t with
    | nil =>
      rw [List.mem_singleton] at hk
      subst hk
      rfl
    | cons b u =>
      rw [List.getLast?_cons_cons]
      rcases List.mem_cons.1 hk with h | h
      · subst h
        have h1 := hs.1 b (List.mem_cons_self _ _)
        have h2 := hle b (List.mem_cons_of_mem _ (List.mem_cons_self _ _))
        omega
      · exact ih k hs.2 h (fun x hx => hle x (List.mem_cons_of_mem _ hx))

theorem foldl_pyKeysStep_getLast? :
    ∀ (l acc : List ℤ), acc.Sorted (· < ·) → (∀ a ∈ acc, ∀ x ∈ l, a ≤ x) →
      l.Sorted (· ≤ ·) → l ≠ [] →
      (l.foldl pyKeysStep acc).getLast? = l.getLast? := by
  intro l
  induction l with
  | nil => intro acc _ _ _ h; exact absurd rfl h
  | cons k t ih =>
    intro acc hs hle hsl _
    rw [List.foldl_cons]
    rw [List.sorted_cons] at hsl
    cases t with
    | nil =>
      show (pyKeysStep acc k).getLast? = some k
      by_cases hk : k ∈ acc
      · rw [pyKeysStep_mem acc k hk]
        exact sorted_getLast?_max acc k hs hk (fun a ha => hle a ha k (List.mem_cons_self _ _))
      · rw [pyKeysStep_not_mem acc k hk]
        simp
    | cons b u =>
      rw [List.getLast?_cons_cons]
      refine ih _ (pyKeysStep_sorted acc k hs (fun a ha => hle a ha k (List.mem_cons_self _ _)))
        ?_ hsl.2 (by simp)
      intro a ha x hx
      exact pyKeysStep_le acc k x (hsl.1 x hx)
        (fun c hc => hle c hc x (List.mem_cons_of_mem _ hx)) a ha

theorem pyKeys_sorted (l : List ℤ) (hsl : l.Sorted (· ≤ ·)) :
    (pyKeys l).Sorted (· < ·) :=
  foldl_pyKeysStep_sorted l [] List.sorted_nil (by simp) hsl

theorem pyKeys_head? (l : List ℤ) (h : l ≠ []) : (pyKeys l).head? = l.head? := by
  cases l with
  | nil => exact absurd rfl h
  | cons k t =>
    unfold pyKeys
    rw [List.foldl_cons, pyKeysStep_not_mem [] k (by simp), List.nil_append,
      foldl_pyKeysStep_head? t [k] (by simp)]
    rfl

theorem pyKeys_getLast? (l : List ℤ) (hsl : l.Sorted (· ≤ ·)) (h : l ≠ []) :
    (pyKeys l).getLast? = l.getLast? :=
  foldl_pyKeysStep_getLast? l [] List.sorted_nil (by simp) hsl h

/-! ### Characterisation of `generate_point_times` -/

theorem distance_congr (dist : ℚ × ℚ → ℚ × ℚ → ℚ) (p q p' q' : TrackPoint)
    (h1 : p.lat = p'.lat) (h2 : p.lon = p'.lon) (h3 : q.lat = q'.lat)
    (h4 : q.lon = q'.lon) :
    Helpers.distance dist p q = Helpers.distance dist p' q' := by
  unfold Helpers.distance
  rw [h1, h2, h3, h4]

theorem timeStep_ok (dist : ℚ × ℚ → ℚ × ℚ → ℚ) (mv : ℚ) (hmv : mv ≠ 0)
    (pts : List TrackPoint) (i : ℕ) :
    timeStep dist mv pts i = .ok (pts.set (i + 1)
      { pts.getD (i + 1) default with
        time := (pts.getD i default).time +
          pyInt (Helpers.distance dist (pts.getD i default) (pts.getD (i + 1) default) / mv) }) := by
  unfold timeStep Helpers.time_diff
  rw [if_neg hmv]

theorem setBoundaryTimes_length (iv : Pair) (pts : List TrackPoint) :
    (setBoundaryTimes iv pts).length = pts.length := by
  simp [setBoundaryTimes]

theorem setBoundaryTimes_coords (iv : Pair) (pts : List TrackPoint) (j : ℕ) :
    ((setBoundaryTimes iv pts).getD j default).lat = (pts.getD j default).lat ∧
    ((setBoundaryTimes iv pts).getD j default).lon = (pts.getD j default).lon ∧
    ((setBoundaryTimes iv pts).getD j default).activities = (pts.getD j default).activities := by
  by_cases hn : pts.length = 0
  · rw [List.length_eq_zero.1 hn]
    exact ⟨rfl, rfl, rfl⟩
  · unfold setBoundaryTimes
    simp only [List.length_set]
    by_cases hj1 : pts.length - 1 = j
    · subst hj1
      rw [getD_set_self _ _ _ _ (by simp only [List.length_set]; omega)]
      by_cases h0 : (0 : ℕ) = pts.length - 1
      · rw [← h0, getD_set_self _ _ _ _ (by omega)]
        exact ⟨rfl, rfl, rfl⟩
      · rw [getD_set_ne _ _ _ _ _ h0]
        exact ⟨rfl, rfl, rfl⟩
    · rw [getD_set_ne _ _ _ _ _ hj1]
      by_cases hj0 : (0 : ℕ) = j
      · subst hj0
        rw [getD_set_self _ _ _ _ (by omega)]
        exact ⟨rfl, rfl, rfl⟩
      · rw [getD_set_ne _ _ _ _ _ hj0]
        exact ⟨rfl, rfl, rfl⟩

theorem setBoundaryTimes_time_zero (iv : Pair) (pts : List TrackPoint)
    (h2 : 2 ≤ pts.length) :
    ((setBoundaryTimes iv pts).getD 0 default).time = iv.start := by
  unfold setBoundaryTimes
  simp only [List.length_set]
  rw [getD_set_ne _ _ _ _ _ (by omega : pts.length - 1 ≠ 0),
    getD_set_self _ _ _ _ (by omega : 0 < pts.length)]

theorem setBoundaryTimes_time_last (iv : Pair) (pts : List TrackPoint)
    (h1 : 1 ≤ pts.length) :
    ((setBoundaryTimes iv pts).getD (pts.length - 1) default).time = iv.endT := by
  unfold setBoundaryTimes
  simp only [List.length_set]
  rw [getD_set_self _ _ _ _ (by simp only [List.length_set]; omega)]

theorem generate_point_times_zero_mv (dist : ℚ × ℚ → ℚ × ℚ → ℚ) (iv : Pair)
    (pts : List TrackPoint) (h3 : 3 ≤ pts.length) (out : List TrackPoint) :
    TrackSegment.generate_point_times dist iv 0 pts ≠ .ok out := by
  intro h
  unfold TrackSegment.generate_point_times at h
  rw [if_neg (by omega)] at h
  obtain ⟨m, hm⟩ : ∃ m, pts.length - 2 = m + 1 := ⟨pts.length - 3, by omega⟩
  rw [hm, List.range_succ_eq_map, runLoop] at h
  simp [timeStep, Helpers.time_diff] at h

theorem generate_point_times_spec (dist : ℚ × ℚ → ℚ × ℚ → ℚ) (iv : Pair) (mv : ℚ)
    (pts : List TrackPoint) (h2 : 2 ≤ pts.length) (hmv : mv ≠ 0 ∨ pts.length = 2) :
    ∃ out, TrackSegment.generate_point_times dist iv mv pts = .ok out ∧
      out.length = pts.length ∧
      (∀ j, (out.getD j default).lat = (pts.getD j default).lat ∧
            (out.getD j default).lon = (pts.getD j default).lon ∧
            (out.getD j default).activities = (pts.getD j default).activities) ∧
      (∀ j, j ≤ pts.length - 2 → (out.getD j default).time = recTime dist mv pts iv.start j) ∧
      (out.getD (pts.length - 1) default).time = iv.endT := by
  have h0 : ¬ pts.length = 0 := by omega
  have hstep : ∀ k, k < pts.length - 2 → ∀ b,
      (b.length = pts.length ∧
       (∀ j, (b.getD j default).lat = (pts.getD j default).lat ∧
             (b.getD j default).lon = (pts.getD j default).lon ∧
             (b.getD j default).activities = (pts.getD j default).activities) ∧
       (∀ j, j ≤ k → j ≤ pts.length - 2 →
         (b.getD j default).time = recTime dist mv pts iv.start j) ∧
       (b.getD (pts.length - 1) default).time = iv.endT) →
      ∃ b', timeStep dist mv b k = .ok b' ∧
      (b'.length = pts.length ∧
       (∀ j, (b'.getD j default).lat = (pts.getD j default).lat ∧
             (b'.getD j default).lon = (pts.getD j default).lon ∧
             (b'.getD j default).activities = (pts.getD j default).activities) ∧
       (∀ j, j ≤ k + 1 → j ≤ pts.length - 2 →
         (b'.getD j default).time = recTime dist mv pts iv.start j) ∧
       (b'.getD (pts.length - 1) default).time = iv.endT) := by
    intro k hk b hQ
    obtain ⟨hlen, hco, ht, hte⟩ := hQ
    have hmv' : mv ≠ 0 := by
      rcases hmv with h | h
      · exact h
      · omega
    have hk1 : k + 1 < b.length := by omega
    refine ⟨_, timeStep_ok dist mv hmv' b k, ?_, ?_, ?_, ?_⟩
    · simp [hlen]
    · intro j
      by_cases hj : k + 1 = j
      · subst hj
        rw [getD_set_self _ _ _ _ hk1]
        exact hco (k + 1)
      · rw [getD_set_ne _ _ _ _ _ hj]
        exact hco j
    · intro j hj hj2
      by_cases hjk : k + 1 = j
      · subst hjk
        rw [getD_set_self _ _ _ _ hk1]
        show (b.getD k default).time + _ = _
        rw [ht k (le_refl k) (by omega)]
        rw [distance_congr dist _ _ _ _ (hco k).1 (hco k).2.1 (hco (k + 1)).1 (hco (k + 1)).2.1]
        rfl
      · rw [getD_set_ne _ _ _ _ _ hjk]
        exact ht j (by omega) hj2
    · rw [getD_set_ne _ _ _ _ _ (by omega : k + 1 ≠ pts.length - 1)]
      exact hte
  have hinit : (setBoundaryTimes iv pts).length = pts.length ∧
      (∀ j, ((setBoundaryTimes iv pts).getD j default).lat = (pts.getD j default).lat ∧
            ((setBoundaryTimes iv pts).getD j default).lon = (pts.getD j default).lon ∧
            ((setBoundaryTimes iv pts).getD j default).activities = (pts.getD j default).activities) ∧
      (∀ j, j ≤ 0 → j ≤ pts.length - 2 →
        ((setBoundaryTimes iv pts).getD j default).time = recTime dist mv pts iv.start j) ∧
      ((setBoundaryTimes iv pts).getD (pts.length - 1) default).time = iv.endT := by
    refine ⟨setBoundaryTimes_length iv pts, setBoundaryTimes_coords iv pts, ?_,
      setBoundaryTimes_time_last iv pts (by omega)⟩
    intro j hj _
    have hj0 : j = 0 := Nat.le_zero.1 hj
    subst hj0
    exact setBoundaryTimes_time_zero iv pts h2
  obtain ⟨out, hout, hQ⟩ := runLoop_range_invariant (timeStep dist mv)
    (fun k b => b.length = pts.length ∧
      (∀ j, (b.getD j default).lat = (pts.getD j default).lat ∧
            (b.getD j default).lon = (pts.getD j default).lon ∧
            (b.getD j default).activities = (pts.getD j default).activities) ∧
      (∀ j, j ≤ k → j ≤ pts.length - 2 →
        (b.getD j default).time = recTime dist mv pts iv.start j) ∧
      (b.getD (pts.length - 1) default).time = iv.endT)
    (pts.length - 2) hstep (setBoundaryTimes iv pts) hinit
  refine ⟨out, ?_, hQ.1, hQ.2.1, fun j hj => hQ.2.2.1 j hj hj, hQ.2.2.2⟩
  unfold TrackSegment.generate_point_times
  rw [if_neg h0]
  exact hout

/-! ### Arithmetic facts about `pyInt` and `recTime` -/

theorem pyInt_eq_floor (q : ℚ) (h : 0 ≤ q) : pyInt q = ⌊q⌋ := by
  unfold pyInt
  rw [if_neg (not_lt.2 h)]

theorem pyInt_nonneg (q : ℚ) (h : 0 ≤ q) : 0 ≤ pyInt q := by
  rw [pyInt_eq_floor q h]
  exact Int.floor_nonneg.2 h

theorem pyInt_le (q : ℚ) (h : 0 ≤ q) : (pyInt q : ℚ) ≤ q := by
  rw [pyInt_eq_floor q h]
  exact Int.floor_le q

theorem recTime_succ (dist : ℚ × ℚ → ℚ × ℚ → ℚ) (mv : ℚ) (pts : List TrackPoint)
    (s : ℤ) (k : ℕ) :
    recTime dist mv pts s (k + 1) = recTime dist mv pts s k +
      pyInt (Helpers.distance dist (pts.getD k default) (pts.getD (k + 1) default) / mv) :=
  rfl

theorem recTime_closed (dist : ℚ × ℚ → ℚ × ℚ → ℚ) (mv : ℚ) (pts : List TrackPoint)
    (s : ℤ) (k : ℕ) :
    recTime dist mv pts s k = s + ∑ i in Finset.range k,
      pyInt (Helpers.distance dist (pts.getD i default) (pts.getD (i + 1) default) / mv) := by
  induction k with
  | zero => simp [recTime]
  | succ k ih =>
    rw [recTime_succ, ih, Finset.sum_range_succ]
    ring

theorem recTime_mono (dist : ℚ × ℚ → ℚ × ℚ → ℚ) (mv : ℚ) (pts : List TrackPoint)
    (s : ℤ) (k : ℕ) (hd : ∀ a b, 0 ≤ dist a b) (hmv : 0 < mv) :
    recTime dist mv pts s k ≤ recTime dist mv pts s (k + 1) := by
  rw [recTime_succ]
  have : 0 ≤ pyInt (Helpers.distance dist (pts.getD k default) (pts.getD (k + 1) default) / mv) :=
    pyInt_nonneg _ (div_nonneg (hd _ _) hmv.le)
  omega

theorem distance_sum_eq_sum (dist : ℚ × ℚ → ℚ × ℚ → ℚ) (pts : List TrackPoint) :
    Helpers.distance_sum dist pts = ∑ i in Finset.range (pts.length - 2),
      Helpers.distance dist (pts.getD i default) (pts.getD (i + 1) default) := by
  unfold Helpers.distance_sum
  rw [foldl_add_range]
  simp

theorem distance_sum_nonneg (dist : ℚ × ℚ → ℚ × ℚ → ℚ) (pts : List TrackPoint)
    (hd : ∀ a b, 0 ≤ dist a b) : 0 ≤ Helpers.distance_sum dist pts := by
  rw [distance_sum_eq_sum]
  exact Finset.sum_nonneg (fun i _ => hd _ _)

theorem recTime_bound (dist : ℚ × ℚ → ℚ × ℚ → ℚ) (pts : List TrackPoint) (s e : ℤ)
    (mv : ℚ) (hd : ∀ a b, 0 ≤ dist a b) (hmvpos : 0 < mv)
    (hne : ((e : ℚ) - (s : ℚ)) ≠ 0)
    (hmveq : mv = Helpers.distance_sum dist pts / ((e : ℚ) - (s : ℚ))) :
    recTime dist mv pts s (pts.length - 2) ≤ e := by
  have hmvne : mv ≠ 0 := ne_of_gt hmvpos
  have hD : Helpers.distance_sum dist pts = mv * ((e : ℚ) - (s : ℚ)) := by
    rw [hmveq]
    field_simp
  have hsum : ∑ i in Finset.range (pts.length - 2),
      (Helpers.distance dist (pts.getD i default) (pts.getD (i + 1) default) / mv) =
      (e : ℚ) - (s : ℚ) := by
    rw [← Finset.sum_div, ← distance_sum_eq_sum, hD, mul_comm, mul_div_assoc,
      div_self hmvne, mul_one]
  have hcast : ((recTime dist mv pts s (pts.length - 2) : ℤ) : ℚ) ≤ (e : ℚ) := by
    rw [recTime_closed]
    push_cast
    have hle : ((∑ i in Finset.range (pts.length - 2),
        pyInt (Helpers.distance dist (pts.getD i default) (pts.getD (i + 1) default) / mv) : ℤ) : ℚ) ≤
        ∑ i in Finset.range (pts.length - 2),
          (Helpers.distance dist (pts.getD i default) (pts.getD (i + 1) default) / mv) := by
      push_cast
      exact Finset.sum_le_sum (fun i _ => pyInt_le _ (div_nonneg (hd _ _) hmvpos.le))
    calc ((s : ℚ) + _) ≤ (s : ℚ) + ((e : ℚ) - (s : ℚ)) := by
          rw [← hsum]
          push_cast at hle
          linarith [hle]
      _ = (e : ℚ) := by ring
  exact_mod_cast hcast

/-! ### Non-decreasing output of a list from adjacent comparisons -/

theorem sorted_le_of_adjacent :
    ∀ (l : List ℤ), (∀ i, i + 1 < l.length → l.getD i 0 ≤ l.getD (i + 1) 0) →
      l.Sorted (· ≤ ·) := by
  intro l
  induction l with
  | nil => intro _; exact List.sorted_nil
  | cons a t ih =>
    intro h
    rw [List.sorted_cons]
    have ht : t.Sorted (· ≤ ·) := ih (fun i hi => h (i + 1) (by simpa using hi))
    refine ⟨?_, ht⟩
    cases t with
    | nil => intro b hb; simp at hb
    | cons c u =>
      have hac : a ≤ c := h 0 (by simp)
      intro b hb
      rcases List.mem_cons.1 hb with hb | hb
      · subst hb; exact hac
      · exact hac.trans (List.rel_of_sorted_cons ht b hb)

/-! ### Elimination of a successful pipeline run -/

theorem mean_velocity_ok_elim (dist : ℚ × ℚ → ℚ × ℚ → ℚ) (pts : List TrackPoint)
    (iv : Pair) (mv : ℚ) (h : Helpers.mean_velocity dist pts iv = .ok mv) :
    iv.endT - iv.start ≠ 0 ∧
      mv = Helpers.distance_sum dist pts / ((iv.endT : ℚ) - (iv.start : ℚ)) := by
  unfold Helpers.mean_velocity at h
  by_cases hc : iv.endT - iv.start = 0
  · rw [if_pos hc] at h
    cases h
  · rw [if_neg hc] at h
    refine ⟨hc, ?_⟩
    cases h
    rfl

theorem init_ok_elim (dist : ℚ × ℚ → ℚ × ℚ → ℚ) (gpts : List GpxPoint) (rate s e : ℤ)
    (seg : TrackSegment) (hok : TrackSegment.init dist gpts rate s e = .ok seg) :
    ∃ mv act out1,
      Helpers.mean_velocity dist (gpts.map TrackPoint.init) ⟨s, e⟩ = .ok mv ∧
      ActivityType.from_mean_velocity mv = .ok act ∧
      TrackSegment.generate_point_times dist ⟨s, e⟩ mv (gpts.map TrackPoint.init) = .ok out1 ∧
      TrackSegment.generate_activities act rate
        (TrackSegment.remove_duplicate_time_points out1) = .ok seg.points ∧
      seg.interval = ⟨s, e⟩ ∧ seg.mean_velocity = mv ∧ seg.activity = act ∧
      seg.activity_sampling_rate = rate := by
  simp only [TrackSegment.init] at hok
  split at hok
  · cases hok
  · split at hok
    · cases hok
    · split at hok
      · cases hok
      · split at hok
        · cases hok
        · cases hok
          rename_i mvE mv hmv actE act hact genE out1 hout1 gaE out4 hout4
          exact ⟨mv, act, out1, hmv, hact, hout1, hout4, rfl, rfl, rfl, rfl⟩

theorem activityStep_map_time (act : ActivityType) (rate : ℤ) (b : List TrackPoint)
    (i : ℕ) (b' : List TrackPoint) (h : activityStep act rate b i = .ok b') :
    b'.map TrackPoint.time = b.map TrackPoint.time := by
  simp only [activityStep] at h
  by_cases hc : rate < (b.getD (i + 1) default).time - (b.getD i default).time
  · rw [if_pos hc] at h
    by_cases hr : rate = 0
    · rw [if_pos hr] at h
      cases h
    · rw [if_neg hr] at h
      cases h
      exact map_time_set_activities b i _
  · rw [if_neg hc] at h
    cases h
    rfl

theorem generate_activities_map_time (act : ActivityType) (rate : ℤ)
    (pts out : List TrackPoint)
    (h : TrackSegment.generate_activities act rate pts = .ok out) :
    out.map TrackPoint.time = pts.map TrackPoint.time := by
  unfold TrackSegment.generate_activities at h
  exact runLoop_ok_invariant (fun b => b.map TrackPoint.time = pts.map TrackPoint.time)
    (activityStep act rate)
    (fun b i b' hb hP => (activityStep_map_time act rate b i b' hb).trans hP)
    _ pts out h rfl

/-! ### Timestamps of a completed pipeline run -/

theorem init_points_times (dist : ℚ × ℚ → ℚ × ℚ → ℚ) (gpts : List GpxPoint)
    (rate s e : ℤ) (seg : TrackSegment)
    (h2 : 2 ≤ gpts.length) (hd : ∀ a b, 0 ≤ dist a b) (hse : s ≤ e)
    (hok : TrackSegment.init dist gpts rate s e = .ok seg) :
    (seg.points.map TrackPoint.time).Sorted (· ≤ ·) ∧
    (seg.points.map TrackPoint.time).head? = some s ∧
    (seg.points.map TrackPoint.time).getLast? = some e := by
  obtain ⟨mv, act, out1, hmv, hact, hout1, hga, _, _, _, _⟩ :=
    init_ok_elim dist gpts rate s e seg hok
  have hlenp : (gpts.map TrackPoint.init).length = gpts.length := List.length_map _ _
  obtain ⟨hne, hmveq⟩ := mean_velocity_ok_elim dist (gpts.map TrackPoint.init) ⟨s, e⟩ mv hmv
  have hne' : e - s ≠ 0 := hne
  have hslt : s < e := by omega
  have hDnn : 0 ≤ Helpers.distance_sum dist (gpts.map TrackPoint.init) :=
    distance_sum_nonneg _ _ hd
  have hesne : ((e : ℚ) - (s : ℚ)) ≠ 0 := by
    intro hq
    have hq2 : (e : ℚ) = (s : ℚ) := by linarith
    have : e = s := by exact_mod_cast hq2
    omega
  have hmvnn : 0 ≤ mv := by
    rw [hmveq]
    apply div_nonneg hDnn
    have hc : (s : ℚ) ≤ (e : ℚ) := by exact_mod_cast hse
    show (0 : ℚ) ≤ _
    linarith
  have hmvor : mv ≠ 0 ∨ (gpts.map TrackPoint.init).length = 2 := by
    by_cases hmv0 : mv = 0
    · right
      by_contra hne2
      have h3 : 3 ≤ (gpts.map TrackPoint.init).length := by omega
      rw [hmv0] at hout1
      exact generate_point_times_zero_mv dist ⟨s, e⟩ _ h3 out1 hout1
    · exact Or.inl hmv0
  obtain ⟨out1', hgen', hlen1, hco, ht, hte⟩ :=
    generate_point_times_spec dist ⟨s, e⟩ mv (gpts.map TrackPoint.init) (by omega) hmvor
  rw [hgen'] at hout1
  injection hout1 with hout1
  subst hout1
  have hadj : ∀ i, i + 1 < (out1'.map TrackPoint.time).length →
      (out1'.map TrackPoint.time).getD i 0 ≤ (out1'.map TrackPoint.time).getD (i + 1) 0 := by
    intro i hi
    rw [List.length_map] at hi
    rw [getD_map_time out1' i (by omega), getD_map_time out1' (i + 1) hi]
    by_cases hcase : i + 1 ≤ (gpts.map TrackPoint.init).length - 2
    · rw [ht i (by omega), ht (i + 1) hcase]
      have hmvpos : 0 < mv := by
        rcases hmvor with h | h
        · exact lt_of_le_of_ne hmvnn (Ne.symm h)
        · omega
      exact recTime_mono dist mv _ _ i hd hmvpos
    · have hieq : i + 1 = (gpts.map TrackPoint.init).length - 1 := by omega
      rw [hieq, hte, ht i (by omega)]
      have hieq2 : i = (gpts.map TrackPoint.init).length - 2 := by omega
      rw [hieq2]
      rcases hmvor with h | h
      · have hmvpos : 0 < mv := lt_of_le_of_ne hmvnn (Ne.symm h)
        exact recTime_bound dist _ s e mv hd hmvpos hesne hmveq
      · have h0 : (gpts.map TrackPoint.init).length - 2 = 0 := by omega
        rw [h0]
        exact hse
  have hsort1 : (out1'.map TrackPoint.time).Sorted (· ≤ ·) := sorted_le_of_adjacent _ hadj
  have hne1 : out1'.map TrackPoint.time ≠ [] := by
    intro hnil
    have hl := congrArg List.length hnil
    rw [List.length_map, List.length_nil] at hl
    omega
  have hpts : seg.points.map TrackPoint.time = pyKeys (out1'.map TrackPoint.time) := by
    rw [generate_activities_map_time act rate _ _ hga, remove_dup_map_time]
  refine ⟨?_, ?_, ?_⟩
  · rw [hpts]
    exact (pyKeys_sorted _ hsort1).le_of_lt
  · rw [hpts, pyKeys_head? _ hne1, head?_eq_getD _ 0 hne1, getD_map_time out1' 0 (by omega),
      ht 0 (by omega)]
    rfl
  · rw [hpts, pyKeys_getLast? _ hsort1 hne1, getLast?_eq_getD _ 0 hne1, List.length_map,
      getD_map_time out1' (out1'.length - 1) (by omega), hlen1, hte]

/-! ### Characterisation of `generate_activities` -/

theorem generate_activities_spec (act : ActivityType) (rate : ℤ)
    (pts : List TrackPoint) (hr : 0 < rate) :
    ∃ out, TrackSegment.generate_activities act rate pts = .ok out ∧
      out.length = pts.length ∧
      ∀ i, i < pts.length →
        (out.getD i default).time = (pts.getD i default).time ∧
        (out.getD i default).activities = (pts.getD i default).activities ++
          (if i < pts.length - 2 ∧
              rate < (pts.getD (i + 1) default).time - (pts.getD i default).time then
            (List.range (Int.toNat ⌊(((pts.getD (i + 1) default).time -
                (pts.getD i default).time : ℤ) : ℚ) / (rate : ℚ)⌋)).map
              (fun (j : ℕ) => Activity.mk act ((pts.getD i default).time + rate * (j : ℤ)))
          else []) := by
  have hstep : ∀ k, k < pts.length - 2 → ∀ b,
      (b.length = pts.length ∧
       ∀ i, i < pts.length →
         (b.getD i default).time = (pts.getD i default).time ∧
         (b.getD i default).activities = (pts.getD i default).activities ++
           (if i < k ∧
               rate < (pts.getD (i + 1) default).time - (pts.getD i default).time then
             (List.range (Int.toNat ⌊(((pts.getD (i + 1) default).time -
                 (pts.getD i default).time : ℤ) : ℚ) / (rate : ℚ)⌋)).map
               (fun (j : ℕ) => Activity.mk act ((pts.getD i default).time + rate * (j : ℤ)))
           else [])) →
      ∃ b', activityStep act rate b k = .ok b' ∧
      (b'.length = pts.length ∧
       ∀ i, i < pts.length →
         (b'.getD i default).time = (pts.getD i default).time ∧
         (b'.getD i default).activities = (pts.getD i default).activities ++
           (if i < k + 1 ∧
               rate < (pts.getD (i + 1) default).time - (pts.getD i default).time then
             (List.range (Int.toNat ⌊(((pts.getD (i + 1) default).time -
                 (pts.getD i default).time : ℤ) : ℚ) / (rate : ℚ)⌋)).map
               (fun (j : ℕ) => Activity.mk act ((pts.getD i default).time + rate * (j : ℤ)))
           else [])) := by
    intro k hk b hQ
    obtain ⟨hlen, hi⟩ := hQ
    have hkn : k < pts.length := by omega
    have hk1n : k + 1 < pts.length := by omega
    have hkb : k < b.length := by omega
    have htk := (hi k hkn).1
    have htk1 := (hi (k + 1) hk1n).1
    have hak := (hi k hkn).2
    simp only [activityStep, htk, htk1]
    by_cases hc : rate < (pts.getD (k + 1) default).time - (pts.getD k default).time
    · rw [if_pos hc, if_neg (by omega : ¬ rate = 0)]
      refine ⟨_, rfl, by simp [hlen], ?_⟩
      intro i hin
      by_cases hik : k = i
      · subst hik
        rw [getD_set_self _ _ _ _ hkb]
        refine ⟨rfl, ?_⟩
        dsimp only
        rw [hak, if_neg (fun hcc => absurd hcc.1 (lt_irrefl k)), List.append_nil,
          if_pos ⟨Nat.lt_succ_self k, hc⟩]
      · rw [getD_set_ne _ _ _ _ _ hik]
        refine ⟨(hi i hin).1, ?_⟩
        rw [(hi i hin).2]
        congr 1
        apply if_congr _ rfl rfl
        omega
    · rw [if_neg hc]
      refine ⟨b, rfl, hlen, ?_⟩
      intro i hin
      refine ⟨(hi i hin).1, ?_⟩
      rw [(hi i hin).2]
      congr 1
      apply if_congr _ rfl rfl
      by_cases hik : i = k
      · subst hik
        constructor
        · intro hcc
          exact absurd hcc.1 (lt_irrefl i)
        · intro hcc
          exact absurd hcc.2 hc
      · omega
  have h0 : pts.length = pts.length ∧ ∀ i, i < pts.length →
      (pts.getD i default).time = (pts.getD i default).time ∧
      (pts.getD i default).activities = (pts.getD i default).activities ++
        (if i < 0 ∧
            rate < (pts.getD (i + 1) default).time - (pts.getD i default).time then
          (List.range (Int.toNat ⌊(((pts.getD (i + 1) default).time -
              (pts.getD i default).time : ℤ) : ℚ) / (rate : ℚ)⌋)).map
            (fun (j : ℕ) => Activity.mk act ((pts.getD i default).time + rate * (j : ℤ)))
        else []) := by
    refine ⟨rfl, fun i hin => ⟨rfl, ?_⟩⟩
    rw [if_neg (fun hcc => absurd hcc.1 (Nat.not_lt_zero i)), List.append_nil]
  obtain ⟨out, hout, hQ⟩ := runLoop_range_invariant (activityStep act rate)
    (fun k b => b.length = pts.length ∧
      ∀ i, i < pts.length →
        (b.getD i default).time = (pts.getD i default).time ∧
        (b.getD i default).activities = (pts.getD i default).activities ++
          (if i < k ∧
              rate < (pts.getD (i + 1) default).time - (pts.getD i default).time then
            (List.range (Int.toNat ⌊(((pts.getD (i + 1) default).time -
                (pts.getD i default).time : ℤ) : ℚ) / (rate : ℚ)⌋)).map
              (fun (j : ℕ) => Activity.mk act ((pts.getD i default).time + rate * (j : ℤ)))
          else []))
    (pts.length - 2) hstep pts h0
  refine ⟨out, ?_, hQ.1, hQ.2⟩
  unfold TrackSegment.generate_activities
  exact hout

/-! ### Degenerate inputs of the pipeline -/

theorem init_nil (dist : ℚ × ℚ → ℚ × ℚ → ℚ) (rate s e : ℤ) (h : e ≠ s) :
    TrackSegment.init dist [] rate s e = .error .indexError := by
  have h1 : e - s ≠ 0 := by omega
  simp [TrackSegment.init, Helpers.mean_velocity, h1, Helpers.distance_sum,
    ActivityType.from_mean_velocity, TrackSegment.generate_point_times, runLoop]

theorem init_singleton (dist : ℚ × ℚ → ℚ × ℚ → ℚ) (c : GpxPoint) (rate s e : ℤ)
    (h : e ≠ s) :
    TrackSegment.init dist [c] rate s e =
      .ok ⟨[⟨c.longitude, c.latitude, c.elevation, e, []⟩], ⟨s, e⟩, 0,
        ActivityType.STILL, rate⟩ := by
  have h1 : e - s ≠ 0 := by omega
  simp [TrackSegment.init, Helpers.mean_velocity, h1, Helpers.distance_sum,
    ActivityType.from_mean_velocity, TrackSegment.generate_point_times, setBoundaryTimes,
    TrackSegment.remove_duplicate_time_points, dictInsert,
    TrackSegment.generate_activities, runLoop, TrackPoint.init, List.getD]

/-! ### Claim theorems -/

/-- Claim C5: `classify` is a pure total function on the nonnegative
velocities: STILL at 0, WALKING on (0, 5/3.6), RUNNING on
[5/3.6, 25/3.6), IN_VEHICLE on [25/3.6, ∞); it fails with InvalidInput
for negative input, and ON_BICYCLE is never returned. -/
theorem C5_classify :
    (∀ v : ℚ, v < 0 → ActivityType.from_mean_velocity v = .error .invalidInput) ∧
    ActivityType.from_mean_velocity 0 = .ok ActivityType.STILL ∧
    (∀ v : ℚ, 0 < v → v < 5 / 3.6 →
      ActivityType.from_mean_velocity v = .ok ActivityType.WALKING) ∧
    (∀ v : ℚ, 5 / 3.6 ≤ v → v < 25 / 3.6 →
      ActivityType.from_mean_velocity v = .ok ActivityType.RUNNING) ∧
    (∀ v : ℚ, 25 / 3.6 ≤ v →
      ActivityType.from_mean_velocity v = .ok ActivityType.IN_VEHICLE) ∧
    (∀ v : ℚ, ActivityType.from_mean_velocity v ≠ .ok ActivityType.ON_BICYCLE) := by
  refine ⟨?_, ?_, ?_, ?_, ?_, ?_⟩
  · intro v hv
    unfold ActivityType.from_mean_velocity
    rw [if_pos hv]
  · unfold ActivityType.from_mean_velocity
    norm_num
  · intro v h0 h1
    have h1' : v < 5000 / 3600 := by norm_num at h1 ⊢; linarith
    unfold ActivityType.from_mean_velocity
    rw [if_neg (by linarith), if_neg (by linarith), if_pos ⟨h0.le, h1'⟩]
  · intro v h0 h1
    have h0' : 5000 / 3600 ≤ v := by norm_num at h0 ⊢; linarith
    have h1' : v < 25000 / 3600 := by norm_num at h1 ⊢; linarith
    have hp : (0 : ℚ) < 5000 / 3600 := by norm_num
    unfold ActivityType.from_mean_velocity
    rw [if_neg (by linarith), if_neg (by intro hv0; rw [hv0] at h0'; linarith),
      if_neg (fun hcc => absurd h0' (not_le.2 hcc.2))]
    by_cases hb : v < 15000 / 3600
    · rw [if_pos ⟨h0', hb⟩]
    · rw [if_neg (fun hcc => hb hcc.2), if_pos ⟨by linarith, h1'⟩]
  · intro v h0
    have h0' : 25000 / 3600 ≤ v := by norm_num at h0 ⊢; linarith
    have hp : (0 : ℚ) < 25000 / 3600 := by norm_num
    have h5 : (5000 : ℚ) / 3600 ≤ 25000 / 3600 := by norm_num
    have h15 : (15000 : ℚ) / 3600 ≤ 25000 / 3600 := by norm_num
    unfold ActivityType.from_mean_velocity
    rw [if_neg (by linarith), if_neg (by intro hv0; rw [hv0] at h0'; linarith),
      if_neg (fun hcc => absurd hcc.2 (not_lt.2 (by linarith))),
      if_neg (fun hcc => absurd hcc.2 (not_lt.2 (by linarith))),
      if_neg (fun hcc => absurd hcc.2 (not_lt.2 (by linarith)))]
  · intro v
    unfold ActivityType.from_mean_velocity
    split_ifs <;> simp

theorem C5_classify_witness :
    ActivityType.from_mean_velocity (-1) = .error .invalidInput ∧
    ActivityType.from_mean_velocity 0 = .ok ActivityType.STILL ∧
    ActivityType.from_mean_velocity 1 = .ok ActivityType.WALKING ∧
    ActivityType.from_mean_velocity 2 = .ok ActivityType.RUNNING ∧
    ActivityType.from_mean_velocity 10 = .ok ActivityType.IN_VEHICLE ∧
    ActivityType.from_mean_velocity 3 ≠ .ok ActivityType.ON_BICYCLE :=
  ⟨C5_classify.1 (-1) (by norm_num), C5_classify.2.1,
   C5_classify.2.2.1 1 (by norm_num) (by norm_num),
   C5_classify.2.2.2.1 2 (by norm_num) (by norm_num),
   C5_classify.2.2.2.2.1 10 (by norm_num),
   C5_classify.2.2.2.2.2 3⟩

/-- Claim C6: `pathDistance` is the sum of `distance(points[i],
points[i+1])` for `i` in the half-open range `[0, len-2)`: the final
leg is never included, and lists shorter than 3 points give the empty
sum 0. -/
theorem C6_path_distance :
    (∀ (dist : ℚ × ℚ → ℚ × ℚ → ℚ) (points : List TrackPoint),
      Helpers.distance_sum dist points = ∑ i in Finset.range (points.length - 2),
        Helpers.distance dist (points.getD i default) (points.getD (i + 1) default)) ∧
    (∀ (dist : ℚ × ℚ → ℚ × ℚ → ℚ) (points : List TrackPoint),
      points.length < 3 → Helpers.distance_sum dist points = 0) := by
  refine ⟨distance_sum_eq_sum, ?_⟩
  intro dist points h
  have h0 : points.length - 2 = 0 := by omega
  unfold Helpers.distance_sum
  rw [h0]
  rfl

theorem C6_path_distance_witness :
    Helpers.distance_sum exDist ex4pts = ∑ i in Finset.range (ex4pts.length - 2),
      Helpers.distance exDist (ex4pts.getD i default) (ex4pts.getD (i + 1) default) ∧
    Helpers.distance_sum exDist [⟨0, 0, 0, 0, []⟩, ⟨1, 1, 1, 0, []⟩] = 0 :=
  ⟨C6_path_distance.1 exDist ex4pts,
   C6_path_distance.2 exDist [⟨0, 0, 0, 0, []⟩, ⟨1, 1, 1, 0, []⟩] (by decide)⟩

/-- Claim C8: `meanVelocity` returns `pathDistance / (end - start)`
when the window has nonzero length, fails with the division-by-zero
error exactly when `end = start`, and a zero-length window aborts the
whole pipeline with that error. -/
theorem C8_mean_velocity :
    (∀ (dist : ℚ × ℚ → ℚ × ℚ → ℚ) (points : List TrackPoint) (iv : Pair),
      iv.endT = iv.start → Helpers.mean_velocity dist points iv = .error .zeroDivision) ∧
    (∀ (dist : ℚ × ℚ → ℚ × ℚ → ℚ) (points : List TrackPoint) (iv : Pair),
      iv.endT ≠ iv.start → Helpers.mean_velocity dist points iv =
        .ok (Helpers.distance_sum dist points / ((iv.endT : ℚ) - (iv.start : ℚ)))) ∧
    (∀ (dist : ℚ × ℚ → ℚ × ℚ → ℚ) (gpts : List GpxPoint) (rate s : ℤ),
      TrackSegment.init dist gpts rate s s = .error .zeroDivision) := by
  refine ⟨?_, ?_, ?_⟩
  · intro dist points iv h
    unfold Helpers.mean_velocity
    rw [if_pos (by omega)]
  · intro dist points iv h
    unfold Helpers.mean_velocity
    rw [if_neg (by omega)]
  · intro dist gpts rate s
    have hmv : Helpers.mean_velocity dist (gpts.map TrackPoint.init) ⟨s, s⟩ =
        .error .zeroDivision := by
      unfold Helpers.mean_velocity
      rw [if_pos (show s - s = 0 by omega)]
    simp only [TrackSegment.init, hmv]

theorem C8_mean_velocity_witness :
    Helpers.mean_velocity exDist [] ⟨3, 3⟩ = .error .zeroDivision ∧
    Helpers.mean_velocity exDist [] ⟨0, 5⟩ =
      .ok (Helpers.distance_sum exDist [] /
        ((((⟨0, 5⟩ : Pair).endT : ℤ) : ℚ) - (((⟨0, 5⟩ : Pair).start : ℤ) : ℚ))) ∧
    TrackSegment.init exDist [exG1] 2 4 4 = .error .zeroDivision :=
  ⟨C8_mean_velocity.1 exDist [] ⟨3, 3⟩ rfl,
   C8_mean_velocity.2.1 exDist [] ⟨0, 5⟩ (by decide),
   C8_mean_velocity.2.2 exDist [exG1] 2 4⟩

/-- Claim C9: interval overlap holds iff `s1.start ≤ s2.end` and
`s2.start ≤ s1.end` (closed intervals, touching endpoints overlap);
the predicate is symmetric; and `anyOverlap` quantifies only over
pairs of distinct list positions, so a segment never overlaps itself. -/
theorem C9_overlap :
    (∀ i1 i2 : Pair, Helpers.overlap i1 i2 = true ↔
      i1.start ≤ i2.endT ∧ i2.start ≤ i1.endT) ∧
    (∀ i1 i2 : Pair, Helpers.overlap i1 i2 = Helpers.overlap i2 i1) ∧
    (∀ segments : List Pair, Helpers.segment_overlap segments = true ↔
      ∃ i j, i < segments.length ∧ j < segments.length ∧ i ≠ j ∧
        Helpers.overlap (segments.getD i default) (segments.getD j default) = true) ∧
    (∀ s : Pair, Helpers.segment_overlap [s] = false) := by
  refine ⟨?_, ?_, ?_, ?_⟩
  · intro i1 i2
    unfold Helpers.overlap
    simp
  · intro i1 i2
    unfold Helpers.overlap
    exact Bool.and_comm _ _
  · intro segments
    unfold Helpers.segment_overlap
    simp only [List.any_eq_true, List.mem_range, Bool.and_eq_true, bne_iff_ne, ne_eq]
    constructor
    · rintro ⟨i, hi, j, hj, hne, hov⟩
      exact ⟨i, j, hi, hj, hne, hov⟩
    · rintro ⟨i, j, hi, hj, hne, hov⟩
      exact ⟨i, hi, j, hj, hne, hov⟩
  · intro s
    simp [Helpers.segment_overlap]

theorem C9_overlap_witness :
    (Helpers.overlap ⟨0, 100⟩ ⟨100, 200⟩ = true ↔
      (⟨0, 100⟩ : Pair).start ≤ (⟨100, 200⟩ : Pair).endT ∧
      (⟨100, 200⟩ : Pair).start ≤ (⟨0, 100⟩ : Pair).endT) ∧
    Helpers.overlap ⟨0, 100⟩ ⟨50, 150⟩ = Helpers.overlap ⟨50, 150⟩ ⟨0, 100⟩ ∧
    Helpers.segment_overlap [⟨0, 100⟩] = false :=
  ⟨C9_overlap.1 ⟨0, 100⟩ ⟨100, 200⟩, C9_overlap.2.1 ⟨0, 100⟩ ⟨50, 150⟩,
   C9_overlap.2.2.2 ⟨0, 100⟩⟩

theorem init_two_points_eval :
    TrackSegment.init exDist [exG1, exG2] 10 0 100 =
      .ok ⟨[⟨1, 2, 3, 0, []⟩, ⟨4, 5, 6, 100, []⟩], ⟨0, 100⟩, 0,
        ActivityType.STILL, 10⟩ := by
  simp [TrackSegment.init, Helpers.mean_velocity, Helpers.distance_sum,
    ActivityType.from_mean_velocity, TrackSegment.generate_point_times,
    TrackSegment.remove_duplicate_time_points, TrackSegment.generate_activities,
    dictInsert, runLoop, TrackPoint.init, exDist, exG1, exG2, Helpers.distance,
    List.getD, setBoundaryTimes]

/-- Claim C1 (counterexample): on a segment of exactly 2 points lying
50 metres apart with window {0, 100} the pipeline computes mean
velocity 0 — not 0.5 m/s — and classifies STILL — not WALKING —
because `pathDistance` sums legs over `[0, len-2)` and a 2-point list
contributes no leg. -/
theorem C1_counterexample :
    (TrackSegment.init exDist [exG1, exG2] 10 0 100).map
      (fun seg => (seg.mean_velocity, seg.activity)) = .ok (0, ActivityType.STILL) ∧
    exDist (exG1.latitude, exG1.longitude) (exG2.latitude, exG2.longitude) = 50 ∧
    (0 : ℚ) ≠ 1 / 2 ∧ ActivityType.STILL ≠ ActivityType.WALKING := by
  refine ⟨?_, by norm_num [exDist, exG1, exG2], by norm_num, by simp⟩
  rw [init_two_points_eval]
  rfl

/-- Claim C1 (amended): for a segment of exactly 2 points 50 metres
apart with window {0, 100}, the pipeline computes mean velocity 0
(the sole leg is the excluded final leg of `pathDistance`), classifies
the segment STILL, and outputs 2 points with timestamps [0, 100] and
no markers. -/
theorem C1_two_point_segment :
    TrackSegment.init exDist [exG1, exG2] 10 0 100 =
      .ok ⟨[⟨1, 2, 3, 0, []⟩, ⟨4, 5, 6, 100, []⟩], ⟨0, 100⟩, 0,
        ActivityType.STILL, 10⟩ ∧
    exDist (exG1.latitude, exG1.longitude) (exG2.latitude, exG2.longitude) = 50 :=
  ⟨init_two_points_eval, by norm_num [exDist, exG1, exG2]⟩

/-- Claim C2 (counterexample): a single-point segment completes the
pipeline, and its first (and only) surviving point carries
window.end = 100, not window.start = 0. -/
theorem C2_counterexample :
    (TrackSegment.init exDist [exG1] 10 0 100).map
      (fun seg => (seg.points.map TrackPoint.time).head?) = .ok (some 100) ∧
    (100 : ℤ) ≠ 0 := by
  refine ⟨?_, by norm_num⟩
  rw [init_singleton exDist exG1 10 0 100 (by norm_num)]
  rfl

/-- Claim C2 (amended): for every segment of at least 2 points whose
window satisfies the TimeWindow invariant start ≤ end and that
completes the pipeline, the output timestamps are non-decreasing in
list order and the first and last surviving points carry exactly
window.start and window.end. -/
theorem C2_sorted_endpoints (dist : ℚ × ℚ → ℚ × ℚ → ℚ) (gpts : List GpxPoint)
    (rate s e : ℤ) (seg : TrackSegment) (h2 : 2 ≤ gpts.length)
    (hd : ∀ a b, 0 ≤ dist a b) (hse : s ≤ e)
    (hok : TrackSegment.init dist gpts rate s e = .ok seg) :
    (seg.points.map TrackPoint.time).Sorted (· ≤ ·) ∧
    (seg.points.map TrackPoint.time).head? = some s ∧
    (seg.points.map TrackPoint.time).getLast? = some e :=
  init_points_times dist gpts rate s e seg h2 hd hse hok

theorem C2_sorted_endpoints_witness :
    (exSeg2.points.map TrackPoint.time).Sorted (· ≤ ·) ∧
    (exSeg2.points.map TrackPoint.time).head? = some 0 ∧
    (exSeg2.points.map TrackPoint.time).getLast? = some 100 :=
  C2_sorted_endpoints exDist [exG1, exG2] 5 0 100 exSeg2 (by decide)
    (fun a b => by unfold exDist; split <;> norm_num) (by decide) (by
      simp [TrackSegment.init, Helpers.mean_velocity, Helpers.distance_sum,
        ActivityType.from_mean_velocity, TrackSegment.generate_point_times,
        TrackSegment.remove_duplicate_time_points, TrackSegment.generate_activities,
        dictInsert, runLoop, TrackPoint.init, exDist, exG1, exG2, Helpers.distance,
        List.getD, setBoundaryTimes, exSeg2])

/-- Claim C3: after time allocation on a segment of n ≥ 2 points
(before deduplication), timestamp[0] = window.start,
timestamp[n-1] = window.end, and every interior point
i ∈ [1, n-2] satisfies
timestamp[i] = timestamp[i-1] + floor(distance(point[i-1], point[i]) / meanVelocity). -/
theorem C3_time_allocation (dist : ℚ × ℚ → ℚ × ℚ → ℚ) (iv : Pair) (mv : ℚ)
    (pts : List TrackPoint) (h2 : 2 ≤ pts.length) (hmv : 0 < mv ∨ pts.length = 2)
    (hd : ∀ a b, 0 ≤ dist a b) :
    ∃ out, TrackSegment.generate_point_times dist iv mv pts = .ok out ∧
      out.length = pts.length ∧
      (out.getD 0 default).time = iv.start ∧
      (out.getD (pts.length - 1) default).time = iv.endT ∧
      ∀ i, 1 ≤ i → i ≤ pts.length - 2 →
        (out.getD i default).time = (out.getD (i - 1) default).time +
          ⌊Helpers.distance dist (pts.getD (i - 1) default) (pts.getD i default) / mv⌋ := by
  have hmv' : mv ≠ 0 ∨ pts.length = 2 := by
    rcases hmv with h | h
    · exact Or.inl (ne_of_gt h)
    · exact Or.inr h
  obtain ⟨out, hout, hlen, hco, ht, hte⟩ := generate_point_times_spec dist iv mv pts h2 hmv'
  refine ⟨out, hout, hlen, ?_, hte, ?_⟩
  · rw [ht 0 (by omega)]
    rfl
  · intro i h1 hi2
    have hmvpos : 0 < mv := by
      rcases hmv with h | h
      · exact h
      · omega
    obtain ⟨i', rfl⟩ : ∃ i', i = i' + 1 := ⟨i - 1, by omega⟩
    simp only [Nat.add_sub_cancel]
    rw [ht (i' + 1) hi2, ht i' (by omega), recTime_succ,
      pyInt_eq_floor (Helpers.distance dist (pts.getD i' default) (pts.getD (i' + 1) default) / mv)
        (div_nonneg (hd _ _) hmvpos.le)]

theorem C3_time_allocation_witness :
    ∃ out, TrackSegment.generate_point_times exDist ⟨0, 100⟩ 1 ex4pts = .ok out ∧
      out.length = ex4pts.length ∧
      (out.getD 0 default).time = (⟨0, 100⟩ : Pair).start ∧
      (out.getD (ex4pts.length - 1) default).time = (⟨0, 100⟩ : Pair).endT ∧
      ∀ i, 1 ≤ i → i ≤ ex4pts.length - 2 →
        (out.getD i default).time = (out.getD (i - 1) default).time +
          ⌊Helpers.distance exDist (ex4pts.getD (i - 1) default) (ex4pts.getD i default) / 1⌋ :=
  C3_time_allocation exDist ⟨0, 100⟩ 1 ex4pts (by decide) (Or.inl (by norm_num))
    (fun a b => by unfold exDist; split <;> norm_num)

/-- Claim C4 (counterexample): on the 3 timestamped points 0, 50, 100
with sampling rate 10, the pair (p[1], p[2]) has gap 50 > 10 and
floor(50/10) = 5, yet p[1] receives no markers: the marker loop stops
before the final consecutive pair. -/
theorem C4_counterexample :
    TrackSegment.generate_activities ActivityType.WALKING 10 ex4pts =
      .ok [⟨0, 0, 0, 0, [⟨.WALKING, 0⟩, ⟨.WALKING, 10⟩, ⟨.WALKING, 20⟩,
              ⟨.WALKING, 30⟩, ⟨.WALKING, 40⟩]⟩,
           ⟨0, 0, 0, 50, []⟩, ⟨0, 0, 0, 100, []⟩] ∧
    (10 : ℤ) < 100 - 50 ∧ Int.toNat ⌊((100 - 50 : ℤ) : ℚ) / (10 : ℚ)⌋ = 5 := by
  refine ⟨?_, by norm_num, by norm_num; decide⟩
  simp [TrackSegment.generate_activities, runLoop, activityStep, ex4pts, List.getD]
  norm_num
  decide

/-- Claim C4 (amended): for every consecutive pair (p[i], p[i+1]) with
i < n - 2 and gap g: if g > samplingRate, exactly floor(g / rate)
markers are appended to p[i] at timestamps p[i].timestamp + rate * j
for j = 0 .. count-1, all with the segment's activity type; if
g ≤ rate, none.  The final consecutive pair (i = n-2) always receives
zero markers. -/
theorem C4_markers (act : ActivityType) (rate : ℤ) (points : List TrackPoint)
    (hr : 0 < rate) :
    ∃ out, TrackSegment.generate_activities act rate points = .ok out ∧
      out.length = points.length ∧
      ∀ i, i < points.length →
        (out.getD i default).time = (points.getD i default).time ∧
        (out.getD i default).activities = (points.getD i default).activities ++
          (if i < points.length - 2 ∧
              rate < (points.getD (i + 1) default).time - (points.getD i default).time then
            (List.range (Int.toNat ⌊(((points.getD (i + 1) default).time -
                (points.getD i default).time : ℤ) : ℚ) / (rate : ℚ)⌋)).map
              (fun (j : ℕ) => Activity.mk act
                ((points.getD i default).time + rate * (j : ℤ)))
          else []) :=
  generate_activities_spec act rate points hr

theorem C4_markers_witness :
    ∃ out, TrackSegment.generate_activities ActivityType.WALKING 10 ex4pts = .ok out ∧
      out.length = ex4pts.length ∧
      ∀ i, i < ex4pts.length →
        (out.getD i default).time = (ex4pts.getD i default).time ∧
        (out.getD i default).activities = (ex4pts.getD i default).activities ++
          (if i < ex4pts.length - 2 ∧
              (10 : ℤ) < (ex4pts.getD (i + 1) default).time - (ex4pts.getD i default).time then
            (List.range (Int.toNat ⌊(((ex4pts.getD (i + 1) default).time -
                (ex4pts.getD i default).time : ℤ) : ℚ) / ((10 : ℤ) : ℚ)⌋)).map
              (fun (j : ℕ) => Activity.mk ActivityType.WALKING
                ((ex4pts.getD i default).time + 10 * (j : ℤ)))
          else []) :=
  C4_markers ActivityType.WALKING 10 ex4pts (by norm_num)

/-- Claim C7 (counterexample): a singleton point list does not raise —
the pipeline completes and produces output. -/
theorem C7_counterexample :
    TrackSegment.init exDist [exG1] 7 0 100 =
      .ok ⟨[⟨1, 2, 3, 100, []⟩], ⟨0, 100⟩, 0, ActivityType.STILL, 7⟩ := by
  rw [init_singleton exDist exG1 7 0 100 (by norm_num)]
  rfl

/-- Claim C7 (amended): with a non-degenerate window, an empty point
list makes the pipeline fail — with an index error at the first
boundary assignment, not the documented InvalidInput — while a
singleton point list completes and produces output. -/
theorem C7_few_points :
    (∀ (dist : ℚ × ℚ → ℚ × ℚ → ℚ) (rate s e : ℤ), e ≠ s →
      TrackSegment.init dist [] rate s e = .error .indexError) ∧
    (∀ (dist : ℚ × ℚ → ℚ × ℚ → ℚ) (c : GpxPoint) (rate s e : ℤ), e ≠ s →
      ∃ seg, TrackSegment.init dist [c] rate s e = .ok seg) :=
  ⟨fun dist rate s e h => init_nil dist rate s e h,
   fun dist c rate s e h => ⟨_, init_singleton dist c rate s e h⟩⟩

theorem C7_few_points_witness :
    TrackSegment.init exDist [] 3 0 5 = .error .indexError ∧
    ∃ seg, TrackSegment.init exDist [exG1] 3 0 5 = .ok seg :=
  ⟨C7_few_points.1 exDist 3 0 5 (by decide), C7_few_points.2 exDist exG1 3 0 5 (by decide)⟩

/-- Claim C10: for every single-point segment with window.end ≠
window.start, the pipeline completes without error; the sole point's
final timestamp is window.end (the start boundary assignment is
overwritten because first and last coincide), it survives
deduplication, and it carries no activity markers. -/
theorem C10_singleton_pipeline (dist : ℚ × ℚ → ℚ × ℚ → ℚ) (c : GpxPoint)
    (rate s e : ℤ) (h : e ≠ s) :
    TrackSegment.init dist [c] rate s e =
      .ok ⟨[⟨c.longitude, c.latitude, c.elevation, e, []⟩], ⟨s, e⟩, 0,
        ActivityType.STILL, rate⟩ :=
  init_singleton dist c rate s e h

theorem C10_singleton_pipeline_witness :
    TrackSegment.init exDist [exG2] 4 0 50 =
      .ok ⟨[⟨exG2.longitude, exG2.latitude, exG2.elevation, 50, []⟩], ⟨0, 50⟩, 0,
        ActivityType.STILL, 4⟩ :=
  C10_singleton_pipeline exDist exG2 4 0 50 (by decide)
